import Mathlib

/-!
Verification of the stats.py per-condition trial statistics pipeline.

Shallow embedding conventions:
* Numeric file fields are modelled as rationals (`ℚ`); floating-point
  rounding is abstracted away, but the IEEE NaN produced by taking the
  mean of an empty series is tracked explicitly: a float value is
  `Option ℚ` with `none` standing for NaN.  NaN propagates through
  addition and division exactly as in IEEE arithmetic.
* A directory is a list of entries carrying a name, a directory flag and
  (for data files) the parsed rows; `os.listdir` order is the list order.
* Reading a file is modelled as returning its already-parsed rows
  (the claims under study presuppose parseable trial files).
* Python `sum` starts from the integer 0 and folds addition from the
  left; `max` folds a strict-greater comparison from the left; `int`
  truncates toward zero; a `dict(zip(ks, vs))` built from distinct keys
  is the association list `zip ks vs` in insertion order.
-/

/-- A parsed row of a trial file: columns Trial, Error, RT, Average RT,
Commissions, Lapses (stats.py line 36). -/
structure Row where
  trial : ℚ
  error : ℚ
  rt : ℚ
  avgRT : ℚ
  commissions : ℚ
  lapses : ℚ
deriving DecidableEq

/-- One entry of a directory listing: its name, whether it is itself a
directory, and (when it is a parseable data file) its parsed rows. -/
structure Entry where
  name : String
  isDir : Bool
  rows : List Row
deriving DecidableEq

/-- Python float values restricted to the rationals, with `none` = NaN. -/
abbrev PVal := Option ℚ

/-- IEEE addition on the NaN-tracking float model: NaN absorbs. -/
def pAdd : PVal → PVal → PVal
  | some a, some b => some (a + b)
  | _, _ => none

/-- Python `sum` over a list of floats: fold `pAdd` starting from 0. -/
def pSum (l : List PVal) : PVal :=
  l.foldl pAdd (some 0)

/-- Division of a float by a (positive) count: NaN stays NaN. -/
def pDiv (x : PVal) (n : ℕ) : PVal :=
  x.map (fun q => q / (n : ℚ))

/-- Python `int()` applied to a float: truncation toward zero. -/
def pyInt (q : ℚ) : ℤ :=
  if 0 ≤ q then q.floor else q.ceil

/-- Python `str.endswith`: a raw suffix test on the characters of the
name, with no dot separator implied. -/
def strEndsWith (s ext : String) : Bool :=
  ext.data.isSuffixOf s.data

/-- `list_data_files` (stats.py lines 16-25): names of the entries whose
name ends with the extension string — a raw suffix test on the name,
with no dot separator and no check that the entry is a regular file. -/
def list_data_files (dir : List Entry) (ext : String) : List String :=
  (dir.filter (fun e => strEndsWith e.name ext)).map Entry.name

/-- The entries of a condition directory that `analyze_condition` will
read: those selected by `list_data_files` with the default "txt"
extension, kept with their contents. -/
def trialFiles (dir : List Entry) : List Entry :=
  dir.filter (fun e => strEndsWith e.name "txt")

/-- The valid reaction times of a trial (stats.py line 49): the RT
column filtered to the inclusive range [100, 500]. -/
def validRTs (df : List Row) : List ℚ :=
  (df.map Row.rt).filter (fun x => decide (100 ≤ x ∧ x ≤ 500))

/-- pandas `Series.mean`: NaN on an empty series, else sum over count. -/
def seriesMean (l : List ℚ) : PVal :=
  if l = [] then none else some (l.sum / (l.length : ℚ))

/-- Result of `calculate_trial_metrics` (stats.py lines 50-54). -/
structure TrialMetrics where
  mean_rt : PVal
  total_commissions : ℚ
  total_lapses : ℚ
deriving DecidableEq

/-- `calculate_trial_metrics` (stats.py lines 40-54): mean of the valid
RTs, and the unfiltered column sums of Commissions and Lapses. -/
def calculate_trial_metrics (df : List Row) : TrialMetrics :=
  { mean_rt := seriesMean (validRTs df)
  , total_commissions := (df.map Row.commissions).sum
  , total_lapses := (df.map Row.lapses).sum }

/-- Result of `analyze_condition` (stats.py lines 78-84). -/
structure Summary where
  mean_of_means : PVal
  total_commissions : ℤ
  mean_commissions : ℚ
  total_lapses : ℤ
  mean_lapses : ℚ
deriving DecidableEq

/-- The per-file metrics computed by the loop of `analyze_condition`
(stats.py lines 70-76), in discovery order. -/
def conditionMetrics (dir : List Entry) : List TrialMetrics :=
  (trialFiles dir).map (fun e => calculate_trial_metrics e.rows)

/-- The `trial_means` list built by the loop of `analyze_condition`. -/
def trialMeans (dir : List Entry) : List PVal :=
  (conditionMetrics dir).map TrialMetrics.mean_rt

/-- The `trial_commissions` list built by `analyze_condition`. -/
def trialCommissions (dir : List Entry) : List ℚ :=
  (conditionMetrics dir).map TrialMetrics.total_commissions

/-- The `trial_lapses` list built by `analyze_condition`. -/
def trialLapses (dir : List Entry) : List ℚ :=
  (conditionMetrics dir).map TrialMetrics.total_lapses

/-- `analyze_condition` (stats.py lines 57-85): per-trial metrics for
every discovered trial file, folded into the condition summary.  The
`if _ = [] then _ else _` branches mirror the Python conditional
expressions guarding the divisions by the trial count. -/
def analyze_condition (dir : List Entry) : Summary :=
  { mean_of_means :=
      if trialMeans dir = [] then some 0
      else pDiv (pSum (trialMeans dir)) (trialMeans dir).length
  , total_commissions := pyInt (trialCommissions dir).sum
  , mean_commissions :=
      if trialCommissions dir = [] then 0
      else (trialCommissions dir).sum / ((trialCommissions dir).length : ℚ)
  , total_lapses := pyInt (trialLapses dir).sum
  , mean_lapses :=
      if trialLapses dir = [] then 0
      else (trialLapses dir).sum / ((trialLapses dir).length : ℚ) }

/-- Example trial file rows with RT column [90, 150, 450, 600],
Commissions column [1, 2, 0, 3] and Lapses column [0, 0, 0, 1]. -/
def exTrialRows : List Row :=
  [ { trial := 1, error := 0, rt := 90, avgRT := 0, commissions := 1, lapses := 0 }
  , { trial := 2, error := 0, rt := 150, avgRT := 0, commissions := 2, lapses := 0 }
  , { trial := 3, error := 0, rt := 450, avgRT := 0, commissions := 0, lapses := 0 }
  , { trial := 4, error := 0, rt := 600, avgRT := 0, commissions := 3, lapses := 1 } ]

/-- Example directory with no entry named with a "txt" suffix. -/
def exNonTrialDir : List Entry :=
  [ { name := "notes.csv", isDir := false, rows := exTrialRows } ]

/-- Example directory mixing a file with no dot before the suffix, a
subdirectory whose name ends in "txt", and a file with another
extension. -/
def exMixedDir : List Entry :=
  [ { name := "notestxt", isDir := false, rows := [] }
  , { name := "datatxt", isDir := true, rows := [] }
  , { name := "notes.csv", isDir := false, rows := [] } ]

/-- Example condition directory: one trial file with a valid RT, one
trial file whose only RT (600) lies outside [100, 500]. -/
def exNaNDir : List Entry :=
  [ { name := "t1.txt", isDir := false
    , rows := [ { trial := 1, error := 0, rt := 300, avgRT := 0, commissions := 1, lapses := 2 } ] }
  , { name := "t2.txt", isDir := false
    , rows := [ { trial := 1, error := 0, rt := 600, avgRT := 0, commissions := 0, lapses := 0 } ] } ]

/-- The canonical condition labels (stats.py line 95). -/
def condition_keys : List String :=
  ["a1", "b1", "a2", "b2"]

/-- Python `list.index`: position of the first occurrence, `none` when
the element is absent (where Python raises ValueError). -/
def listIndex : List String → String → Option ℕ
  | [], _ => none
  | k :: ks, x => if x = k then some 0 else (listIndex ks x).map (fun i => i + 1)

/-- The key computations performed by `sorted(conditions, key = ...)`
(stats.py line 99): Python evaluates the key on every element, in list
order, before sorting, so the first element absent from `keys` raises
ValueError before anything else happens. -/
def allIndices (keys : List String) : List String → Except String (List ℕ)
  | [] => Except.ok []
  | n :: ns =>
    match listIndex keys n with
    | none => Except.error (n ++ " is not in list")
    | some i => (allIndices keys ns).map (fun is => i :: is)

/-- Stable insertion of an element into a key-sorted list: the new
element goes after existing elements with the same key. -/
def insertByKey (key : String → ℕ) (x : String) : List String → List String
  | [] => [x]
  | y :: ys => if key y ≤ key x then y :: insertByKey key x ys else x :: y :: ys

/-- A stable sort by key, processing elements left to right, matching
the stability guarantee of Python `sorted`. -/
def pySortByKey (key : String → ℕ) (l : List String) : List String :=
  l.foldl (fun acc x => insertByKey key x acc) []

/-- The sort key of stats.py line 99: the index of the name in the
canonical label list.  The default 0 is never reached when the sort
runs, because `allIndices` has already failed on any absent name. -/
def condKey (n : String) : ℕ :=
  (listIndex condition_keys n).getD 0

/-- The `sorted(conditions, key = lambda x: condition_keys.index(x))`
expression of stats.py line 99, after the key computations succeeded. -/
def pySortedConditions (l : List String) : List String :=
  pySortByKey condKey l

/-- `list_subdirs` (stats.py lines 6-14): the names of the immediate
subdirectories, in discovery order.  The root directory is modelled as
an association list from subdirectory name to directory contents. -/
def list_subdirs (root : List (String × List Entry)) : List String :=
  root.map Prod.fst

/-- Reading the subdirectory with a given name, as
`os.path.join(dir, condition)` resolves it: directory names on disk are
distinct, so the first match is the directory. -/
def lookupDir (root : List (String × List Entry)) (n : String) : List Entry :=
  match root.find? (fun p => p.1 == n) with
  | some p => p.2
  | none => []

/-- `get_condition_summaries` (stats.py lines 87-104) together with its
evaluation trace: the result pairs the returned dict (an association
list in insertion order, as `dict(zip(...))` builds it) with the list of
condition directories analyzed, in analysis order.  The `Except.error`
branch is taken by the ValueError of the key computations of `sorted`,
which in Python fires before the analysis loop runs: on error, no
condition directory has been analyzed and no output exists. -/
def gcsAux (root : List (String × List Entry)) :
    Except String (List (String × Summary) × List String) :=
  match allIndices condition_keys (list_subdirs root) with
  | Except.error e => Except.error e
  | Except.ok _ =>
    Except.ok
      ( List.zip condition_keys
          ((pySortedConditions (list_subdirs root)).map
            (fun n => analyze_condition (lookupDir root n)))
      , pySortedConditions (list_subdirs root) )

/-- The value returned by `get_condition_summaries`. -/
def get_condition_summaries (root : List (String × List Entry)) :
    Except String (List (String × Summary)) :=
  (gcsAux root).map Prod.fst

/-- All lists without duplicates drawing their elements from the
canonical labels: the permutations of the sublists of
`condition_keys`. -/
def nodupListsInKeys : List (List String) :=
  (condition_keys.sublists.map List.permutations').flatten

/-- Example root directory: the four canonical labels in a scrambled
discovery order. -/
def exFullRoot : List (String × List Entry) :=
  [("b2", exNaNDir), ("a1", []), ("b1", exNonTrialDir), ("a2", exMixedDir)]

/-- Example root directory holding only two of the canonical labels. -/
def exPartialRoot : List (String × List Entry) :=
  [("a2", exNaNDir), ("b2", [])]

/-- Example root directory with a subdirectory named outside the
canonical label set. -/
def exBadRoot : List (String × List Entry) :=
  [("a1", []), ("c1", [])]

/-- A bar chart as the plot functions configure it before saving. -/
structure Chart where
  title : String
  ylabel : String
  xlabel : String
  color : String
  xs : List String
  heights : List PVal
  ylim_lower : ℚ
  ylim_upper : PVal
  filename : String
deriving DecidableEq

/-- Python `>` on floats: false whenever either side is NaN. -/
def pGt : PVal → PVal → Bool
  | some a, some b => decide (b < a)
  | _, _ => false

/-- Python `max` over a list of floats: raises (`none`) on an empty
list, otherwise keeps folding the strictly-greater test from the
left. -/
def pyMax : List PVal → Option PVal
  | [] => none
  | x :: xs => some (xs.foldl (fun m v => if pGt v m then v else m) x)

/-- `plot_rt_bar` (stats.py lines 106-117): bars are the per-condition
means of means; the y-axis runs from 0 to the maximum plus 50.  `none`
models the ValueError of `max` on an empty summary mapping. -/
def plot_rt_bar (summaries : List (String × Summary)) : Option Chart :=
  match pyMax (summaries.map (fun p => p.2.mean_of_means)) with
  | none => none
  | some m => some
      { title := "Mean Reaction Time by Condition"
      , ylabel := "Mean RT (ms)", xlabel := "Condition"
      , color := "steelblue", xs := summaries.map Prod.fst
      , heights := summaries.map (fun p => p.2.mean_of_means)
      , ylim_lower := 0, ylim_upper := pAdd m (some 50)
      , filename := "mean_rts.png" }

/-- `plot_commission_bar` (stats.py lines 119-130): bars are the mean
commissions; the y-axis runs from 0 to the maximum plus 1. -/
def plot_commission_bar (summaries : List (String × Summary)) : Option Chart :=
  match pyMax (summaries.map (fun p => some p.2.mean_commissions)) with
  | none => none
  | some m => some
      { title := "Mean Commissions by Condition"
      , ylabel := "Mean Count", xlabel := "Condition"
      , color := "orange", xs := summaries.map Prod.fst
      , heights := summaries.map (fun p => some p.2.mean_commissions)
      , ylim_lower := 0, ylim_upper := pAdd m (some 1)
      , filename := "mean_commissions.png" }

/-- `plot_lapse_bar` (stats.py lines 132-143): bars are the mean lapses;
the y-axis runs from 0 to the maximum plus 1. -/
def plot_lapse_bar (summaries : List (String × Summary)) : Option Chart :=
  match pyMax (summaries.map (fun p => some p.2.mean_lapses)) with
  | none => none
  | some m => some
      { title := "Mean Lapses by Condition"
      , ylabel := "Mean Count", xlabel := "Condition"
      , color := "crimson", xs := summaries.map Prod.fst
      , heights := summaries.map (fun p => some p.2.mean_lapses)
      , ylim_lower := 0, ylim_upper := pAdd m (some 1)
      , filename := "mean_lapses.png" }

/-- The mathematical maximum of a nonempty list of rationals (0 as a
default on the empty list, which the claims never reach): the
specification phrase "the maximum plotted metric value". -/
def maxOfQ : List ℚ → ℚ
  | [] => 0
  | x :: xs => xs.foldl max x

/-- The usage line printed by `__main__` (stats.py line 154). -/
def usage_message : String :=
  "Usage: py stats.py <path-to-directory>"

/-- Observable outcome of a run of the `__main__` block.  `usageExit`
carries only the printed usage line and the process exit status — no
summaries are computed and no chart is written on that path. -/
inductive MainResult where
  | usageExit (printed : String) (exitCode : ℕ)
  | failed (msg : String)
  | completed (printed : List (String × Summary))
      (rtChart commissionChart lapseChart : Option Chart)
deriving DecidableEq

/-- The `__main__` block (stats.py lines 152-160), with the filesystem
at the root-path argument passed explicitly.  When fewer than two argv
entries exist, the program prints the usage line and calls `sys.exit()`
with no argument, which raises SystemExit(None) and terminates the
process with exit status 0 — success, not a nonzero status. -/
def pyMain (argv : List String) (root : List (String × List Entry)) : MainResult :=
  if argv.length < 2 then MainResult.usageExit usage_message 0
  else
    match get_condition_summaries root with
    | Except.error e => MainResult.failed e
    | Except.ok s =>
        MainResult.completed s (plot_rt_bar s) (plot_commission_bar s) (plot_lapse_bar s)

/-- Example summary mapping with RT means [300, 280, 310, 295] and
all-zero commission and lapse means. -/
def exChartSummaries : List (String × Summary) :=
  [ ("a1", { mean_of_means := some 300, total_commissions := 0
           , mean_commissions := 0, total_lapses := 0, mean_lapses := 0 })
  , ("b1", { mean_of_means := some 280, total_commissions := 0
           , mean_commissions := 0, total_lapses := 0, mean_lapses := 0 })
  , ("a2", { mean_of_means := some 310, total_commissions := 0
           , mean_commissions := 0, total_lapses := 0, mean_lapses := 0 })
  , ("b2", { mean_of_means := some 295, total_commissions := 0
           , mean_commissions := 0, total_lapses := 0, mean_lapses := 0 }) ]

lemma pAdd_none_left (x : PVal) : pAdd none x = none := by
  cases x <;> rfl

lemma pAdd_none_right (x : PVal) : pAdd x none = none := by
  cases x <;> rfl

lemma foldl_pAdd_none (l : List PVal) : l.foldl pAdd none = none := by
  induction l with
  | nil => rfl
  | cons x xs ih => rw [List.foldl_cons, pAdd_none_left]; exact ih

lemma foldl_pAdd_of_mem_none (l : List PVal) :
    ∀ acc : PVal, none ∈ l → l.foldl pAdd acc = none := by
  induction l with
  | nil => intro acc h; cases h
  | cons x xs ih =>
    intro acc h
    rcases List.mem_cons.mp h with hx | hxs
    · rw [List.foldl_cons, ← hx, pAdd_none_right]
      exact foldl_pAdd_none xs
    · rw [List.foldl_cons]
      exact ih _ hxs

lemma pSum_eq_none_of_mem (l : List PVal) (h : none ∈ l) : pSum l = none :=
  foldl_pAdd_of_mem_none l (some 0) h

/-- Claim C3: for every trial table, `calculate_trial_metrics` returns a
`mean_rt` equal to the arithmetic mean of exactly the RT values lying in
the inclusive range [100, 500], whenever that valid subset is
nonempty. -/
theorem mean_rt_is_mean_of_valid_rts (df : List Row) (h : validRTs df ≠ []) :
    (calculate_trial_metrics df).mean_rt =
      some ((validRTs df).sum / ((validRTs df).length : ℚ)) := by
  simp [calculate_trial_metrics, seriesMean, h]

/-- Witness for C3: on the trial with RT column [90, 150, 450, 600] the
valid subset is [150, 450] and the mean is 300. -/
theorem mean_rt_is_mean_of_valid_rts_witness :
    validRTs exTrialRows = [150, 450] ∧
      (calculate_trial_metrics exTrialRows).mean_rt = some 300 := by
  refine ⟨by decide, ?_⟩
  rw [mean_rt_is_mean_of_valid_rts exTrialRows (by decide)]
  norm_num [validRTs, exTrialRows]

/-- Claim C4: for every trial table, `calculate_trial_metrics` returns
`total_commissions` and `total_lapses` as the unfiltered column sums,
independent of the RT validity filter; in particular the Commissions
column [1, 2, 0, 3] (with RT values 90 and 600 outside the valid range)
sums to 6. -/
theorem totals_sum_all_rows :
    (∀ df : List Row,
        (calculate_trial_metrics df).total_commissions = (df.map Row.commissions).sum ∧
        (calculate_trial_metrics df).total_lapses = (df.map Row.lapses).sum) ∧
      (calculate_trial_metrics exTrialRows).total_commissions = 6 := by
  refine ⟨fun df => ⟨rfl, rfl⟩, ?_⟩
  norm_num [calculate_trial_metrics, exTrialRows]

/-- Claim C5: for every condition directory for which File Discovery
returns no trial files, `analyze_condition` returns the all-zero
summary, with no division-by-zero failure. -/
theorem analyze_condition_no_files (dir : List Entry)
    (h : list_data_files dir "txt" = []) :
    analyze_condition dir =
      { mean_of_means := some 0, total_commissions := 0
      , mean_commissions := 0, total_lapses := 0, mean_lapses := 0 } := by
  have ht : trialFiles dir = [] := by
    have h2 : (trialFiles dir).map Entry.name = [] := h
    exact List.map_eq_nil_iff.mp h2
  unfold analyze_condition trialMeans trialCommissions trialLapses conditionMetrics
  rw [ht]
  decide

/-- Witness for C5: a directory holding only a non-"txt" file yields
the all-zero summary. -/
theorem analyze_condition_no_files_witness :
    list_data_files exNonTrialDir "txt" = [] ∧
      analyze_condition exNonTrialDir =
        { mean_of_means := some 0, total_commissions := 0
        , mean_commissions := 0, total_lapses := 0, mean_lapses := 0 } :=
  ⟨by decide, analyze_condition_no_files exNonTrialDir (by decide)⟩

/-- Claim C2: for every condition directory containing a trial file with
no RT value in [100, 500] (its `mean_rt` is NaN), `analyze_condition`
returns a `mean_of_means` that is NaN: the undefined value propagates
through the outer mean. -/
theorem nan_mean_rt_propagates (dir : List Entry) (e : Entry)
    (he : e ∈ trialFiles dir) (hrt : validRTs e.rows = []) :
    (analyze_condition dir).mean_of_means = none := by
  have hmem : (none : PVal) ∈ trialMeans dir := by
    refine List.mem_map.mpr ⟨calculate_trial_metrics e.rows, ?_, ?_⟩
    · exact List.mem_map.mpr ⟨e, he, rfl⟩
    · simp [calculate_trial_metrics, hrt, seriesMean]
  have hne : trialMeans dir ≠ [] := by
    intro hnil
    rw [hnil] at hmem
    cases hmem
  show (if trialMeans dir = [] then some 0
      else pDiv (pSum (trialMeans dir)) (trialMeans dir).length) = none
  rw [if_neg hne, pSum_eq_none_of_mem _ hmem]
  rfl

/-- Witness for C2: a condition directory with one valid trial and one
trial whose only RT (600) is out of range has a NaN mean of means. -/
theorem nan_mean_rt_propagates_witness :
    (exNaNDir.get ⟨1, by decide⟩) ∈ trialFiles exNaNDir ∧
      validRTs (exNaNDir.get ⟨1, by decide⟩).rows = [] ∧
      (analyze_condition exNaNDir).mean_of_means = none := by
  refine ⟨by decide, by decide, ?_⟩
  exact nan_mean_rt_propagates exNaNDir (exNaNDir.get ⟨1, by decide⟩) (by decide) (by decide)

/-- Claim C10: `list_data_files` selects entries by a raw suffix test on
the name, with no dot separator and no file-type check: a name is listed
iff some entry of the directory bears it and it ends with the extension
string; concretely, the file "notestxt" (no dot) and the subdirectory
"datatxt" are both included while the file "notes.csv" is excluded. -/
theorem list_data_files_raw_suffix :
    (∀ (dir : List Entry) (ext f : String),
        f ∈ list_data_files dir ext ↔
          (∃ e ∈ dir, e.name = f) ∧ strEndsWith f ext = true) ∧
      list_data_files exMixedDir "txt" = ["notestxt", "datatxt"] := by
  constructor
  · intro dir ext f
    simp only [list_data_files, List.mem_map, List.mem_filter]
    constructor
    · rintro ⟨e, ⟨hmem, hend⟩, rfl⟩
      exact ⟨⟨e, hmem, rfl⟩, hend⟩
    · rintro ⟨⟨e, hmem, rfl⟩, hend⟩
      exact ⟨e, ⟨hmem, hend⟩, rfl⟩
  · decide

lemma listIndex_eq_none_iff (keys : List String) (x : String) :
    listIndex keys x = none ↔ x ∉ keys := by
  induction keys with
  | nil => simp [listIndex]
  | cons k ks ih =>
    by_cases hx : x = k
    · simp [listIndex, hx]
    · simp [listIndex, hx, ih]

lemma allIndices_ok (keys : List String) (l : List String)
    (h : ∀ n ∈ l, n ∈ keys) : ∃ is, allIndices keys l = Except.ok is := by
  induction l with
  | nil => exact ⟨[], rfl⟩
  | cons n ns ih =>
    obtain ⟨is, his⟩ := ih (fun m hm => h m (List.mem_cons_of_mem n hm))
    have hmem : n ∈ keys := h n (List.mem_cons_self n ns)
    have hidx : listIndex keys n ≠ none :=
      fun hc => ((listIndex_eq_none_iff keys n).mp hc) hmem
    obtain ⟨i, hi⟩ := Option.ne_none_iff_exists.mp hidx
    refine ⟨i :: is, ?_⟩
    simp [allIndices, ← hi, his, Except.map]

lemma allIndices_error (keys : List String) (l : List String)
    (h : ∃ n ∈ l, n ∉ keys) : ∃ msg, allIndices keys l = Except.error msg := by
  induction l with
  | nil => obtain ⟨n, hn, _⟩ := h; cases hn
  | cons m ns ih =>
    obtain ⟨n, hn, hnk⟩ := h
    rcases List.mem_cons.mp hn with heq | htail
    · subst heq
      have : listIndex keys n = none := (listIndex_eq_none_iff keys n).mpr hnk
      exact ⟨n ++ " is not in list", by simp [allIndices, this]⟩
    · cases hidx : listIndex keys m with
      | none => exact ⟨m ++ " is not in list", by simp [allIndices, hidx]⟩
      | some i =>
        obtain ⟨msg, hmsg⟩ := ih ⟨n, htail, hnk⟩
        exact ⟨msg, by simp [allIndices, hidx, hmsg, Except.map]⟩

lemma mem_nodupListsInKeys (l : List String) (hn : l.Nodup)
    (hs : ∀ n ∈ l, n ∈ condition_keys) : l ∈ nodupListsInKeys := by
  obtain ⟨p, hp, hps⟩ := List.Nodup.subperm hn (fun a ha => hs a ha)
  refine List.mem_flatten.mpr ⟨p.permutations', ?_, ?_⟩
  · exact List.mem_map.mpr ⟨p, List.mem_sublists.mpr hps, rfl⟩
  · exact List.mem_permutations'.mpr hp.symm

lemma sorted_eq_filter_of_mem (l : List String) (hl : l ∈ nodupListsInKeys) :
    pySortedConditions l = condition_keys.filter (fun k => l.contains k) := by
  revert hl
  revert l
  decide

lemma sorted_eq_filter (l : List String) (hn : l.Nodup)
    (hs : ∀ n ∈ l, n ∈ condition_keys) :
    pySortedConditions l = condition_keys.filter (fun k => l.contains k) :=
  sorted_eq_filter_of_mem l (mem_nodupListsInKeys l hn hs)

lemma zip_map_self {α β : Type} (l : List α) (f : α → β) :
    l.zip (l.map f) = l.map (fun x => (x, f x)) := by
  induction l with
  | nil => rfl
  | cons x xs ih => simp [ih]

lemma map_fst_zip_take {α β : Type} :
    ∀ (a : List α) (b : List β), b.length ≤ a.length →
      (a.zip b).map Prod.fst = a.take b.length := by
  intro a
  induction a with
  | nil =>
    intro b hb
    have : b = [] := List.eq_nil_of_length_eq_zero (Nat.le_zero.mp hb)
    simp [this]
  | cons x xs ih =>
    intro b hb
    cases b with
    | nil => simp
    | cons y ys =>
      simp only [List.zip_cons_cons, List.map_cons, List.length_cons, List.take_succ_cons]
      exact congrArg (x :: ·) (ih ys (Nat.le_of_succ_le_succ hb))

/-- Claim C1: when the immediate subdirectories are named exactly the
four canonical labels (in any discovery order), `get_condition_summaries`
returns the mapping keyed by the canonical labels in canonical order,
each label bound to the analysis of the subdirectory of the same name. -/
theorem suite_full_root_binds_labels_by_name (root : List (String × List Entry))
    (hperm : (list_subdirs root).Perm condition_keys) :
    get_condition_summaries root =
      Except.ok (condition_keys.map
        (fun l => (l, analyze_condition (lookupDir root l)))) := by
  have hn : (list_subdirs root).Nodup := hperm.nodup_iff.mpr (by decide)
  have hs : ∀ n ∈ list_subdirs root, n ∈ condition_keys :=
    fun n hmem => hperm.subset hmem
  have hsorted : pySortedConditions (list_subdirs root) = condition_keys := by
    rw [sorted_eq_filter _ hn hs]
    refine List.filter_eq_self.mpr ?_
    intro a ha
    exact List.elem_iff.mpr (hperm.symm.subset ha)
  obtain ⟨is, hok⟩ := allIndices_ok condition_keys (list_subdirs root) hs
  simp only [get_condition_summaries, gcsAux, hok, hsorted, Except.map]
  rw [zip_map_self]

/-- Witness for C1: a root holding the four canonical labels in the
discovery order b2, a1, b1, a2. -/
theorem suite_full_root_binds_labels_by_name_witness :
    (list_subdirs exFullRoot).Perm condition_keys ∧
      get_condition_summaries exFullRoot =
        Except.ok (condition_keys.map
          (fun l => (l, analyze_condition (lookupDir exFullRoot l)))) :=
  ⟨by decide, suite_full_root_binds_labels_by_name exFullRoot (by decide)⟩

/-- Claim C6: when the immediate subdirectories form a strict subset of
the canonical labels, the returned mapping has one entry per discovered
subdirectory, its keys are the canonical labels taken positionally from
the start of the canonical list, and its values follow the sorted
discovery list — label assignment is positional, not by name match. -/
theorem suite_partial_root_labels_positional (root : List (String × List Entry))
    (hn : (list_subdirs root).Nodup)
    (hs : ∀ n ∈ list_subdirs root, n ∈ condition_keys)
    (hlt : (list_subdirs root).length < 4) :
    ∃ out, get_condition_summaries root = Except.ok out ∧
      out.length = root.length ∧
      out.map Prod.fst = condition_keys.take root.length ∧
      out.map Prod.snd =
        (pySortedConditions (list_subdirs root)).map
          (fun n => analyze_condition (lookupDir root n)) := by
  have hfperm :
      (condition_keys.filter (fun k => (list_subdirs root).contains k)).Perm
        (list_subdirs root) := by
    refine (List.perm_ext_iff_of_nodup (List.Nodup.filter _ (by decide)) hn).mpr ?_
    intro a
    simp only [List.mem_filter, List.elem_iff]
    exact ⟨fun h => h.2, fun h => ⟨hs a h, h⟩⟩
  have hslen : (pySortedConditions (list_subdirs root)).length = root.length := by
    rw [sorted_eq_filter _ hn hs, hfperm.length_eq]
    simp [list_subdirs]
  have hrootlen : root.length ≤ 4 := by
    have : (list_subdirs root).length = root.length := by simp [list_subdirs]
    omega
  obtain ⟨is, hok⟩ := allIndices_ok condition_keys (list_subdirs root) hs
  refine ⟨List.zip condition_keys
      ((pySortedConditions (list_subdirs root)).map
        (fun n => analyze_condition (lookupDir root n))), ?_, ?_, ?_, ?_⟩
  · simp only [get_condition_summaries, gcsAux, hok, Except.map]
  · rw [List.length_zip, List.length_map, hslen]
    show min 4 root.length = root.length
    omega
  · rw [map_fst_zip_take]
    · rw [List.length_map, hslen]
    · rw [List.length_map, hslen]
      exact hrootlen
  · apply List.map_snd_zip
    rw [List.length_map, hslen]
    exact hrootlen

/-- Witness for C6: a root holding only a2 and b2 yields a two-entry
mapping keyed a1, b1 whose values are the analyses of a2 and b2. -/
theorem suite_partial_root_labels_positional_witness :
    (list_subdirs exPartialRoot).Nodup ∧
      (∀ n ∈ list_subdirs exPartialRoot, n ∈ condition_keys) ∧
      (list_subdirs exPartialRoot).length < 4 ∧
      ∃ out, get_condition_summaries exPartialRoot = Except.ok out ∧
        out.length = exPartialRoot.length ∧
        out.map Prod.fst = condition_keys.take exPartialRoot.length ∧
        out.map Prod.snd =
          (pySortedConditions (list_subdirs exPartialRoot)).map
            (fun n => analyze_condition (lookupDir exPartialRoot n)) :=
  ⟨by decide, by decide, by decide,
    suite_partial_root_labels_positional exPartialRoot (by decide) (by decide) (by decide)⟩

/-- Claim C7: a root containing a subdirectory named outside the
canonical labels makes `get_condition_summaries` fail with the
is-not-in-list lookup error, with no partial output: the error branch of
`gcsAux` is taken before any condition directory is analyzed, so neither
a mapping nor an analysis trace exists. -/
theorem suite_unknown_subdir_raises (root : List (String × List Entry))
    (h : ∃ n ∈ list_subdirs root, n ∉ condition_keys) :
    ∃ msg, gcsAux root = Except.error msg ∧
      get_condition_summaries root = Except.error msg := by
  obtain ⟨msg, hmsg⟩ := allIndices_error condition_keys (list_subdirs root) h
  refine ⟨msg, ?_, ?_⟩
  · simp only [gcsAux, hmsg]
  · simp only [get_condition_summaries, gcsAux, hmsg, Except.map]

/-- Witness for C7: a root with subdirectories a1 and c1 fails on the
unknown name c1. -/
theorem suite_unknown_subdir_raises_witness :
    (∃ n ∈ list_subdirs exBadRoot, n ∉ condition_keys) ∧
      ∃ msg, gcsAux exBadRoot = Except.error msg ∧
        get_condition_summaries exBadRoot = Except.error msg :=
  ⟨⟨"c1", by decide, by decide⟩,
    suite_unknown_subdir_raises exBadRoot ⟨"c1", by decide, by decide⟩⟩

lemma foldl_pGt_map_some (xs : List ℚ) :
    ∀ a : ℚ, (xs.map some).foldl (fun m v => if pGt v m then v else m) (some a) =
      some (xs.foldl max a) := by
  induction xs with
  | nil => intro a; rfl
  | cons x xs ih =>
    intro a
    rw [List.map_cons, List.foldl_cons, List.foldl_cons]
    have hstep : (if pGt (some x) (some a) then some x else some a) = some (max a x) := by
      by_cases h : a < x
      · simp [pGt, h, max_eq_right (le_of_lt h)]
      · simp [pGt, h, max_eq_left (not_lt.mp h)]
    rw [hstep]
    exact ih (max a x)

lemma pyMax_map_some (l : List ℚ) (h : l ≠ []) :
    pyMax (l.map some) = some (some (maxOfQ l)) := by
  cases l with
  | nil => exact absurd rfl h
  | cons x xs =>
    rw [List.map_cons]
    show some ((xs.map some).foldl (fun m v => if pGt v m then v else m) (some x)) = _
    rw [foldl_pGt_map_some xs x]
    rfl

lemma map_mean_of_means_eq_map_some (s : List (String × Summary))
    (hdef : ∀ p ∈ s, (p.2.mean_of_means).isSome = true) :
    s.map (fun p => p.2.mean_of_means) =
      (s.map (fun p => (p.2.mean_of_means).getD 0)).map some := by
  induction s with
  | nil => rfl
  | cons p ps ih =>
    obtain ⟨a, ha⟩ := Option.isSome_iff_exists.mp (hdef p (List.mem_cons_self p ps))
    simp only [List.map_cons, ha, Option.getD_some]
    exact congrArg (some a :: ·) (ih (fun q hq => hdef q (List.mem_cons_of_mem p hq)))

lemma map_ne_nil_of_ne_nil {α β : Type} (f : α → β) (l : List α) (h : l ≠ []) :
    l.map f ≠ [] := by
  cases l with
  | nil => exact absurd rfl h
  | cons x xs => simp

/-- Claim C9: for every nonempty summary mapping whose RT means are all
defined, each chart renders (no raise) with a y-axis upper bound equal
to the maximum plotted metric value plus the fixed headroom: 50 for the
mean-RT chart, 1 for the commissions and lapses charts. -/
theorem chart_ylim_max_plus_headroom (s : List (String × Summary)) (hne : s ≠ [])
    (hdef : ∀ p ∈ s, (p.2.mean_of_means).isSome = true) :
    (∃ c, plot_rt_bar s = some c ∧
        c.ylim_upper = some (maxOfQ (s.map (fun p => (p.2.mean_of_means).getD 0)) + 50)) ∧
      (∃ c, plot_commission_bar s = some c ∧
        c.ylim_upper = some (maxOfQ (s.map (fun p => p.2.mean_commissions)) + 1)) ∧
      (∃ c, plot_lapse_bar s = some c ∧
        c.ylim_upper = some (maxOfQ (s.map (fun p => p.2.mean_lapses)) + 1)) := by
  refine ⟨?_, ?_, ?_⟩
  · have hmax : pyMax (s.map (fun p => p.2.mean_of_means)) =
        some (some (maxOfQ (s.map (fun p => (p.2.mean_of_means).getD 0)))) := by
      rw [map_mean_of_means_eq_map_some s hdef]
      exact pyMax_map_some _ (map_ne_nil_of_ne_nil _ s hne)
    have h1 : plot_rt_bar s = some
        { title := "Mean Reaction Time by Condition"
        , ylabel := "Mean RT (ms)", xlabel := "Condition"
        , color := "steelblue", xs := s.map Prod.fst
        , heights := s.map (fun p => p.2.mean_of_means)
        , ylim_lower := 0
        , ylim_upper := some (maxOfQ (s.map (fun p => (p.2.mean_of_means).getD 0)) + 50)
        , filename := "mean_rts.png" } := by
      simp only [plot_rt_bar, hmax, pAdd]
    exact ⟨_, h1, rfl⟩
  · have hmap : s.map (fun p => some p.2.mean_commissions) =
        (s.map (fun p => p.2.mean_commissions)).map some := by
      rw [List.map_map]
      rfl
    have hmax : pyMax (s.map (fun p => some p.2.mean_commissions)) =
        some (some (maxOfQ (s.map (fun p => p.2.mean_commissions)))) := by
      rw [hmap]
      exact pyMax_map_some _ (map_ne_nil_of_ne_nil _ s hne)
    have h1 : plot_commission_bar s = some
        { title := "Mean Commissions by Condition"
        , ylabel := "Mean Count", xlabel := "Condition"
        , color := "orange", xs := s.map Prod.fst
        , heights := s.map (fun p => some p.2.mean_commissions)
        , ylim_lower := 0
        , ylim_upper := some (maxOfQ (s.map (fun p => p.2.mean_commissions)) + 1)
        , filename := "mean_commissions.png" } := by
      simp only [plot_commission_bar, hmax, pAdd]
    exact ⟨_, h1, rfl⟩
  · have hmap : s.map (fun p => some p.2.mean_lapses) =
        (s.map (fun p => p.2.mean_lapses)).map some := by
      rw [List.map_map]
      rfl
    have hmax : pyMax (s.map (fun p => some p.2.mean_lapses)) =
        some (some (maxOfQ (s.map (fun p => p.2.mean_lapses)))) := by
      rw [hmap]
      exact pyMax_map_some _ (map_ne_nil_of_ne_nil _ s hne)
    have h1 : plot_lapse_bar s = some
        { title := "Mean Lapses by Condition"
        , ylabel := "Mean Count", xlabel := "Condition"
        , color := "crimson", xs := s.map Prod.fst
        , heights := s.map (fun p => some p.2.mean_lapses)
        , ylim_lower := 0
        , ylim_upper := some (maxOfQ (s.map (fun p => p.2.mean_lapses)) + 1)
        , filename := "mean_lapses.png" } := by
      simp only [plot_lapse_bar, hmax, pAdd]
    exact ⟨_, h1, rfl⟩

/-- Witness for C9: RT means [300, 280, 310, 295] give an upper bound
of 360, and the all-zero commissions and lapses charts still render
with upper bound 1. -/
theorem chart_ylim_max_plus_headroom_witness :
    exChartSummaries ≠ [] ∧
      (∀ p ∈ exChartSummaries, (p.2.mean_of_means).isSome = true) ∧
      (∃ c, plot_rt_bar exChartSummaries = some c ∧ c.ylim_upper = some 360) ∧
      (∃ c, plot_commission_bar exChartSummaries = some c ∧ c.ylim_upper = some 1) ∧
      (∃ c, plot_lapse_bar exChartSummaries = some c ∧ c.ylim_upper = some 1) := by
  have h := chart_ylim_max_plus_headroom exChartSummaries (by decide) (by decide)
  refine ⟨by decide, by decide, ?_, ?_, ?_⟩
  · obtain ⟨c, hc, hu⟩ := h.1
    refine ⟨c, hc, ?_⟩
    rw [hu]
    norm_num [exChartSummaries, maxOfQ, max_def]
  · obtain ⟨c, hc, hu⟩ := h.2.1
    refine ⟨c, hc, ?_⟩
    rw [hu]
    norm_num [exChartSummaries, maxOfQ, max_def]
  · obtain ⟨c, hc, hu⟩ := h.2.2
    refine ⟨c, hc, ?_⟩
    rw [hu]
    norm_num [exChartSummaries, maxOfQ, max_def]

/-- Counterexample to C8 as stated: invoked with no positional argument
(argv = ["stats.py"]), the program does print the usage line and stop
early, but the `sys.exit()` call terminates with exit status 0 — a
success status, not the nonzero-equivalent termination the claim
asserts. -/
theorem main_missing_arg_zero_exit_cex :
    pyMain ["stats.py"] [] = MainResult.usageExit usage_message 0 ∧
      ∀ msg code, pyMain ["stats.py"] [] = MainResult.usageExit msg code → code = 0 := by
  refine ⟨rfl, ?_⟩
  intro msg code h
  rw [show pyMain ["stats.py"] [] = MainResult.usageExit usage_message 0 from rfl] at h
  injection h with h1 h2
  exact h2.symm

/-- Claim C8 (amended): invoked without the positional root-directory
argument, the program prints the usage message and terminates early
with exit status 0 (the default of `sys.exit()`), performing no
analysis and writing no output files. -/
theorem main_missing_arg_usage_exit (argv : List String)
    (root : List (String × List Entry)) (h : argv.length < 2) :
    pyMain argv root = MainResult.usageExit usage_message 0 := by
  simp [pyMain, h]

/-- Witness for the amended C8: argv holding only the script name. -/
theorem main_missing_arg_usage_exit_witness :
    (["stats.py"] : List String).length < 2 ∧
      pyMain ["stats.py"] [] = MainResult.usageExit usage_message 0 :=
  ⟨by decide, main_missing_arg_usage_exit ["stats.py"] [] (by decide)⟩
